import Mathlib

/-!
Verification of the option-replay backtesting engine.

We shallowly embed the Go sources of `contactkeval/option-replay`:
a `time.Time` instant is modelled as the integer number of seconds since
Go's zero time (January 1, year 1, 00:00:00 UTC); the zero `time.Time`
value is the integer `0`, and `IsZero` is equality with `0`.
`float64` quantities are modelled with exact rationals `ℚ` (the pricing
formulas of `internal/pricing/bs.go` use real-valued transcendental
functions and are modelled over `ℝ`).  Fallible Go functions return
`Except`/`Option`; a Go panic is an explicit error constructor.
-/

namespace OptionReplay

/-- A Go `time.Time` instant: seconds since January 1, year 1, UTC.
The zero value `0` is Go's zero time (`IsZero`). -/
abbrev GoTime := Int

/-- Seconds per calendar day (the engine works in UTC, so a calendar day
is exactly 86400 seconds). -/
def secsPerDay : Int := 86400

/-- The calendar date of an instant, as a day index: the model of Go's
`Format("2006-01-02")` keying used for bar maps and deduplication.
`Int.fdiv` is floor division, matching calendar-day boundaries for all
instants. -/
def dayKey (t : GoTime) : Int := Int.fdiv t secsPerDay

/-- Go's `time.Weekday()` as an integer, Sunday = 0, Monday = 1, ...,
Saturday = 6.  Day 0 of our epoch (January 1, year 1) was a Monday in
the proleptic Gregorian calendar, hence the `+ 1`. -/
def weekday (t : GoTime) : Int := (dayKey t + 1) % 7

/-- One trading bar (`internal/data`, type `Bar`): OHLCV for one day. -/
structure Bar where
  date : GoTime
  op : ℚ
  hi : ℚ
  lo : ℚ
  close : ℚ
  vol : ℚ
  deriving Repr, DecidableEq

/-- Model of `ExitSpec` from `internal/backtest/engine/executor.go`: each rule is
independently optional (`nil` pointer = `none`). -/
structure ExitSpec where
  profitTargetPct : Option ℚ := none
  stopLossPct : Option ℚ := none
  underlyingMovePx : Option ℚ := none
  maxDaysInTrade : Option Int := none
  exitByDaysToExpiry : Option Int := none
  deriving Repr, DecidableEq

/-- A strike rule, the semantic form of the `strike_rule` strings
dispatched by `ResolveStrike` in
`internal/backtest/strategy/planner.go` (the `DELTA:` rule, whose
resolution needs the implied-volatility solver, is not needed by any
claim and is omitted). -/
inductive LegField where
  | strike
  | premium
  deriving Repr, DecidableEq

/-- Arithmetic strike expressions with `{LEGn.STRIKE}` / `{LEGn.PREMIUM}`
tokens, the typed form of the strings handled by
`evaluateLegExpression` (regex token substitution followed by govaluate
arithmetic evaluation). -/
inductive LegExpr where
  | num (q : ℚ)
  | ref (n : Int) (f : LegField)
  | add (a b : LegExpr)
  | sub (a b : LegExpr)
  | mul (a b : LegExpr)
  | div (a b : LegExpr)
  deriving Repr, DecidableEq

inductive StrikeRule where
  | atm
  | atmOffsetAbs (v : ℚ)
  | atmOffsetPct (v : ℚ)
  | legExpression (e : LegExpr)
  | unrecognized
  deriving Repr, DecidableEq

/-- Model of `LegSpec` (`internal/backtest/strategy/planner.go`). -/
structure LegSpec where
  side : String := "buy"
  optionType : String := "call"
  strikeRule : StrikeRule := StrikeRule.atm
  qty : Int := 1
  expiration : Int := 0
  deriving Repr, DecidableEq

/-- Model of `TradeLeg` (`internal/backtest/strategy/planner.go`). -/
structure TradeLeg where
  spec : LegSpec
  strike : ℚ
  expiration : GoTime
  openPremium : ℚ
  closePremium : ℚ := 0
  deriving Repr, DecidableEq

/-- Model of `StrategySpec` (`internal/backtest/strategy/planner.go`). -/
structure StrategySpec where
  daysToExpiry : Int := 0
  dateMatchType : String := "nearest"
  legs : List LegSpec := []
  deriving Repr, DecidableEq

/-- Terminal close reasons.  The Go engine records formatted strings
(`"profit_target_%.2f%%"`, `"stop_loss_%.2f%%"`, `"underlying_move_%.2f"`,
`"max_days_%d"`, `"exit_%ddays_before_expiry"`, `"expired"`,
`"data_end"`, `"no_data"`); each constructor carries the same payload as
the corresponding format string. -/
inductive CloseReason where
  | profitTarget (pct : ℚ)
  | stopLoss (pct : ℚ)
  | underlyingMove (px : ℚ)
  | maxDays (n : Int)
  | exitDaysBeforeExpiry (n : Int)
  | expired
  | dataEnd
  | noData
  deriving Repr, DecidableEq

/-- Model of `Trade` (`internal/backtest/engine/executor.go`). -/
structure Trade where
  id : Int
  openDateTime : GoTime
  closeDateTime : Option GoTime := none
  underlyingAtOpen : ℚ
  underlyingAtClose : ℚ := 0
  legs : List TradeLeg
  openPremium : ℚ
  closePremium : ℚ := 0
  highPremium : ℚ
  lowPremium : ℚ
  closedBy : Option CloseReason := none
  deriving Repr, DecidableEq

/-- Ceiling division on integers: `⌈x / y⌉` for `y > 0`, the model of
`math.Ceil` applied to a duration expressed in days. -/
def intCeilDiv (x y : Int) : Int := -(Int.fdiv (-x) y)

/-- The percentage-change base actually computed by `checkExits`:
`|open|`, replaced by `1.0` only when `|open| < 1e-9`. -/
def changeBase (openPrem : ℚ) : ℚ :=
  if |openPrem| < 1 / 1000000000 then 1 else |openPrem|

/-- The percentage change computed by `checkExits`:
`(curr − open) / changeBase(open) × 100`. -/
def changePct (openPrem curr : ℚ) : ℚ :=
  (curr - openPrem) / changeBase openPrem * 100

/-- The percentage change as stated by the specification:
`(total − open-premium) / max(|open-premium|, 1.0) × 100`.
Stated only for comparison with `changePct`. -/
def specChangePct (openPrem curr : ℚ) : ℚ :=
  (curr - openPrem) / max |openPrem| 1 * 100

/-- The minimum days-to-expiry across the legs, seeded with
`math.MaxInt32` exactly as `checkExits` does. -/
def minDaysToExpiry (legs : List TradeLeg) (barDate : GoTime) : Int :=
  legs.foldl
    (fun m leg => min m (intCeilDiv (leg.expiration - barDate) secsPerDay))
    2147483647

/-- The tail of `checkExits` after the max-days rule: the
exit-by-days-to-expiry rule. -/
def checkExitsAfterDays (tr : Trade) (bar : Bar) (cfg : ExitSpec) :
    Option CloseReason :=
  match cfg.exitByDaysToExpiry with
  | some n =>
    if minDaysToExpiry tr.legs bar.date ≤ n then
      some (CloseReason.exitDaysBeforeExpiry n)
    else none
  | none => none

/-- The tail of `checkExits` after the underlying-move rule. -/
def checkExitsAfterMove (tr : Trade) (bar : Bar) (cfg : ExitSpec) :
    Option CloseReason :=
  match cfg.maxDaysInTrade with
  | some n =>
    if n ≤ Int.fdiv (bar.date - tr.openDateTime) secsPerDay then
      some (CloseReason.maxDays n)
    else checkExitsAfterDays tr bar cfg
  | none => checkExitsAfterDays tr bar cfg

/-- The tail of `checkExits` after the stop-loss rule. -/
def checkExitsAfterStop (tr : Trade) (bar : Bar) (cfg : ExitSpec) :
    Option CloseReason :=
  match cfg.underlyingMovePx with
  | some px =>
    if px ≤ |bar.close - tr.underlyingAtOpen| then
      some (CloseReason.underlyingMove px)
    else checkExitsAfterMove tr bar cfg
  | none => checkExitsAfterMove tr bar cfg

/-- The tail of `checkExits` after the profit-target rule. -/
def checkExitsAfterProfit (tr : Trade) (currPremium : ℚ) (bar : Bar)
    (cfg : ExitSpec) : Option CloseReason :=
  match cfg.stopLossPct with
  | some pct =>
    if changePct tr.openPremium currPremium ≤ -pct then
      some (CloseReason.stopLoss pct)
    else checkExitsAfterStop tr bar cfg
  | none => checkExitsAfterStop tr bar cfg

/-- Model of `checkExits` from `internal/backtest/engine/executor.go`
(lines 458–528), translated condition for condition; the redundant
credit/debit branch of the profit-target rule is kept. -/
def checkExits (tr : Trade) (currPremium : ℚ) (bar : Bar) (cfg : ExitSpec) :
    Option CloseReason :=
  match cfg.profitTargetPct with
  | some pct =>
    if 0 ≤ pct then
      if tr.openPremium < 0 then
        if pct ≤ changePct tr.openPremium currPremium then
          some (CloseReason.profitTarget pct)
        else checkExitsAfterProfit tr currPremium bar cfg
      else
        if pct ≤ changePct tr.openPremium currPremium then
          some (CloseReason.profitTarget pct)
        else checkExitsAfterProfit tr currPremium bar cfg
    else checkExitsAfterProfit tr currPremium bar cfg
  | none => checkExitsAfterProfit tr currPremium bar cfg

/-- The profit-target rule in isolation (step (a) of the exit order). -/
def profitTargetRule (tr : Trade) (currPremium : ℚ) (cfg : ExitSpec) :
    Option CloseReason :=
  match cfg.profitTargetPct with
  | some pct =>
    if 0 ≤ pct ∧ pct ≤ changePct tr.openPremium currPremium then
      some (CloseReason.profitTarget pct)
    else none
  | none => none

/-- The stop-loss rule in isolation (step (b) of the exit order). -/
def stopLossRule (tr : Trade) (currPremium : ℚ) (cfg : ExitSpec) :
    Option CloseReason :=
  match cfg.stopLossPct with
  | some pct =>
    if changePct tr.openPremium currPremium ≤ -pct then
      some (CloseReason.stopLoss pct)
    else none
  | none => none

/-- The underlying-move rule in isolation (step (c) of the exit order). -/
def underlyingMoveRule (tr : Trade) (bar : Bar) (cfg : ExitSpec) :
    Option CloseReason :=
  match cfg.underlyingMovePx with
  | some px =>
    if px ≤ |bar.close - tr.underlyingAtOpen| then
      some (CloseReason.underlyingMove px)
    else none
  | none => none

/-- The max-days-in-trade rule in isolation (step (d) of the exit order). -/
def maxDaysRule (tr : Trade) (bar : Bar) (cfg : ExitSpec) :
    Option CloseReason :=
  match cfg.maxDaysInTrade with
  | some n =>
    if n ≤ Int.fdiv (bar.date - tr.openDateTime) secsPerDay then
      some (CloseReason.maxDays n)
    else none
  | none => none

/-- The exit-by-days-to-expiry rule in isolation (step (e) of the exit
order). -/
def exitByDteRule (tr : Trade) (bar : Bar) (cfg : ExitSpec) :
    Option CloseReason :=
  match cfg.exitByDaysToExpiry with
  | some n =>
    if minDaysToExpiry tr.legs bar.date ≤ n then
      some (CloseReason.exitDaysBeforeExpiry n)
    else none
  | none => none

/-- First non-`none` element of a list of optional results: the
short-circuit "first rule that fires" discipline. -/
def firstSome : List (Option CloseReason) → Option CloseReason
  | [] => none
  | some r :: _ => some r
  | none :: rest => firstSome rest

/-- A provider's `GetOptionPrice`: `none` models an error return.
Arguments: strike, expiration, option type, as-of date. -/
abbrev OptPriceFn := ℚ → GoTime → String → GoTime → Option ℚ

/-- The Black-Scholes fallback used inside the simulation loop.
The `BlackScholesPrice` overload called by `executor.go`
(signature `(S, K, T, r, sigma, isCall)`) is not among the sources, so
its value is a parameter of the simulation.
Arguments: spot, strike, time-in-years, rate, volatility, is-call. -/
abbrev BsFn := ℚ → ℚ → ℚ → ℚ → ℚ → Bool → ℚ

/-- Go's `strings.ToLower` (kernel-reducible model over the character
data). -/
def goToLower (s : String) : String := String.mk (s.data.map Char.toLower)

/-- Go's `strings.TrimSpace` (kernel-reducible model over the character
data). -/
def goTrimSpace (s : String) : String :=
  String.mk
    (((s.data.dropWhile Char.isWhitespace).reverse.dropWhile
      Char.isWhitespace).reverse)

/-- The side sign applied when aggregating a leg into a trade total:
`-1` for `"sell"`, `+1` otherwise. -/
def sideSign (side : String) : ℚ := if goToLower side = "sell" then -1 else 1

/-- Intrinsic value of a leg at expiration, as computed inline by
`simCloseTrade`: `max(0, close − strike)` for calls,
`max(0, strike − close)` otherwise. -/
def legIntrinsic (leg : TradeLeg) (underlyingClose : ℚ) : ℚ :=
  if goToLower leg.spec.optionType = "call" then
    max 0 (underlyingClose - leg.strike)
  else
    max 0 (leg.strike - underlyingClose)

/-- One leg's signed contribution to the trade total at a bar
(`simCloseTrade`, inner loop): intrinsic value at or after expiration,
otherwise the provider price, falling back to Black-Scholes when the
provider fails or returns a non-positive price.  The time to expiration
is `(leg.Expiration.Sub(b.Date).Hours() / (24 * 365))` years. -/
def legContribution (prov : OptPriceFn) (bs : BsFn) (hv : ℚ) (leg : TradeLeg)
    (b : Bar) : ℚ :=
  let sign := sideSign leg.spec.side
  if ¬ b.date < leg.expiration then
    sign * legIntrinsic leg b.close * leg.spec.qty * 100
  else
    let fallback := bs b.close leg.strike
      ((leg.expiration - b.date) / (secsPerDay * 365)) (2/100) hv
      (goToLower leg.spec.optionType = "call")
    let p := match prov leg.strike leg.expiration leg.spec.optionType b.date with
      | some p => if p ≤ 0 then fallback else p
      | none => fallback
    sign * p * leg.spec.qty * 100

/-- The trade total at a bar: sum of the legs' contributions. -/
def totalPremium (prov : OptPriceFn) (bs : BsFn) (hv : ℚ)
    (legs : List TradeLeg) (b : Bar) : ℚ :=
  legs.foldl (fun acc leg => acc + legContribution prov bs hv leg b) 0

/-- The all-legs-at-or-after-expiration check of
`simCloseTrade`. -/
def allLegsExpired (legs : List TradeLeg) (b : Bar) : Bool :=
  legs.all (fun leg => ¬ b.date < leg.expiration)

/-- The per-bar loop of `simCloseTrade` (executor.go lines 333–436):
processes the current bar `b`, then the remaining bars `rest`; when the
bars run out, closes at the last processed bar with
`close-premium = high-premium` and reason `data_end`. -/
def simLoop (prov : OptPriceFn) (bs : BsFn) (hv : ℚ) (cfg : ExitSpec)
    (tr : Trade) (b : Bar) (rest : List Bar) : Trade :=
  let total := totalPremium prov bs hv tr.legs b
  let high := if tr.highPremium < total then total else tr.highPremium
  let low := if total < tr.lowPremium then total else tr.lowPremium
  let tr := { tr with highPremium := high, lowPremium := low }
  match checkExits tr total b cfg with
  | some reason =>
    { tr with closePremium := total, underlyingAtClose := b.close,
              closeDateTime := some b.date, closedBy := some reason }
  | none =>
    if allLegsExpired tr.legs b then
      { tr with closePremium := total, underlyingAtClose := b.close,
                closeDateTime := some b.date,
                closedBy := some CloseReason.expired }
    else
      match rest with
      | [] =>
        { tr with closePremium := tr.highPremium,
                  underlyingAtClose := b.close,
                  closeDateTime := some b.date,
                  closedBy := some CloseReason.dataEnd }
      | b2 :: rest2 => simLoop prov bs hv cfg tr b2 rest2

/-- Model of `simCloseTrade` (executor.go lines 299–436).  The starting index is
the first bar at or after the open date (`sort.Search` on bars sorted
ascending, modelled by `dropWhile` which coincides with it on sorted
input).  When no such bar exists the trade closes as `no_data`, with the
close time set to the wall clock `time.Now().UTC()` — the wall clock is
the explicit parameter `now`. -/
def simCloseTrade (prov : OptPriceFn) (bs : BsFn) (hv : ℚ) (cfg : ExitSpec)
    (tr : Trade) (bars : List Bar) (now : GoTime) : Trade :=
  match bars.dropWhile (fun b => b.date < tr.openDateTime) with
  | [] =>
    { tr with closeDateTime := some now, closePremium := tr.openPremium,
              closedBy := some CloseReason.noData }
  | b :: rest => simLoop prov bs hv cfg tr b rest

/-! ### Date matching (`MatchBarDate`, `src/unnamed/part_004`; the
identical private duplicate `findBarDate` is used by the scheduler in
`internal/backtest/engine.go`). -/

/-- Is the policy string one of the four recognized `DateMatchType`
values? -/
def knownMode (mode : String) : Bool :=
  mode = "exact" || mode = "higher" || mode = "lower" || mode = "nearest"

/-- The scan of `MatchBarDate` over the (sorted) candidate list,
carrying `(exact, lower, higher)` with Go zero times as sentinels:
per candidate, three independent updates exactly as in the source. -/
def scanDates (d : GoTime) : List GoTime → GoTime × GoTime × GoTime →
    GoTime × GoTime × GoTime
  | [], s => s
  | dt :: rest, (ex, lo, hi) =>
    let ex := if dt = d then dt else ex
    let lo := if dt < d then dt else lo
    let hi := if d < dt ∧ hi = 0 then dt else hi
    scanDates d rest (ex, lo, hi)

/-- Model of `MatchBarDate(d, dates, mode)`: unrecognized modes default to
`nearest`; the candidates are sorted (`sort.Slice` by `Before`) and
scanned; the mode then selects among exact / last-before /
first-after, with `nearest` preferring an exact hit, then the closer of
lower and higher with ties (`<=`) going to lower.  A zero return means
"no match". -/
def MatchBarDate (d : GoTime) (dates : List GoTime) (mode : String) : GoTime :=
  let mode := if knownMode mode then mode else "nearest"
  let sorted := dates.insertionSort (· ≤ ·)
  let s := scanDates d sorted (0, 0, 0)
  let ex := s.1
  let lo := s.2.1
  let hi := s.2.2
  if mode = "exact" then ex
  else if mode = "lower" then lo
  else if mode = "higher" then hi
  else
    if ex ≠ 0 then ex
    else if lo ≠ 0 ∧ hi ≠ 0 then
      if d - lo ≤ hi - d then lo else hi
    else if lo ≠ 0 then lo
    else if hi ≠ 0 then hi
    else 0

/-! ### Scheduler (`ResolveScheduleDates`, `internal/backtest/engine.go`
lines 607–769). -/

/-- A scheduling failure: either an ordinary Go error return (the
message text of the static part of the `fmt.Errorf` format) or a
runtime panic from indexing `NthList[0]` on an empty slice. -/
inductive SchedErr where
  | goError (msg : String)
  | panicIndexOutOfRange
  deriving Repr, DecidableEq

/-- Model of `EntryRule` (`internal/backtest/engine.go`).  Zero dates select the
defaults (`now` minus one year / `now`). -/
structure EntryRule where
  startDate : GoTime := 0
  endDate : GoTime := 0
  underlying : String := ""
  mode : String := ""
  nthList : List Int := []
  dateMatchType : String := ""
  monthlyExpiryOnly : Bool := false
  deriving Repr, DecidableEq

/-- Match one candidate against the bar dates, keeping it only when the
match is non-zero (`findBarDate` call sites inside
`ResolveScheduleDates`). -/
def matchCandidate (barDates : List GoTime) (mt : String) (c : GoTime) :
    Option GoTime :=
  let day := MatchBarDate c barDates mt
  if day = 0 then none else some day

/-- The daily iteration `for cur := start; !cur.After(end);
cur = cur.AddDate(0, 0, 1)`: all instants `start + k·86400 ≤ end`
(UTC, so adding one calendar day adds exactly 86400 seconds). -/
def scheduleDays (start endT : GoTime) : List GoTime :=
  if endT < start then []
  else
    (List.range ((endT - start) / secsPerDay + 1).toNat).map
      (fun k : ℕ => start + secsPerDay * (k : Int))

/-- The candidate days of `nth_weekday` mode: every day of the range
whose Go weekday number (Sunday = 0 … Saturday = 6) is in the offsets
list.  The occurrence index of the weekday in its week or month is not
consulted. -/
def nthWeekdayCandidates (start endT : GoTime) (nthList : List Int) :
    List GoTime :=
  (scheduleDays start endT).filter (fun c => weekday c ∈ nthList)

/-- The `earnings_offset` / `expiry_offset` candidate construction:
each source date plus `offset` days, kept when inside the range and
matched to a bar date. -/
def offsetCandidates (src : List GoTime) (offset : Int)
    (start endT : GoTime) (barDates : List GoTime) (mt : String) :
    List GoTime :=
  src.filterMap (fun e =>
    let candidate := e + secsPerDay * offset
    if candidate < start ∨ endT < candidate then none
    else matchCandidate barDates mt candidate)

/-! Proleptic-Gregorian helpers for `nth_month_day` mode (the model of
`time.Date(y, m, d, 0, 0, 0, 0, time.UTC)` and `Year()`). -/

/-- Gregorian leap year. -/
def isLeapYear (y : Int) : Bool :=
  (y % 4 = 0 ∧ y % 100 ≠ 0) ∨ y % 400 = 0

/-- Days in a month. -/
def daysInMonth (y m : Int) : Int :=
  if m = 2 then (if isLeapYear y then 29 else 28)
  else if m = 4 ∨ m = 6 ∨ m = 9 ∨ m = 11 then 30
  else 31

/-- Day index (days since January 1, year 1) of a civil date, via the
rata-die formula. -/
def dayIndexOfCivil (y m d : Int) : Int :=
  365 * (y - 1) + Int.fdiv (y - 1) 4 - Int.fdiv (y - 1) 100 +
    Int.fdiv (y - 1) 400 + Int.fdiv (367 * m - 362) 12 +
    (if m ≤ 2 then 0 else if isLeapYear y then -1 else -2) + d - 1

/-- Midnight UTC of a civil date as a `GoTime`. -/
def timeOfCivil (y m d : Int) : GoTime := secsPerDay * dayIndexOfCivil y m d

/-- The civil year containing an instant (Go `Time.Year()` in UTC),
via the days-to-civil algorithm shifted to a March-based year. -/
def yearOfTime (t : GoTime) : Int :=
  let z := dayKey t + 306
  let era := Int.fdiv z 146097
  let doe := z - era * 146097
  let yoe := Int.fdiv
    (doe - Int.fdiv doe 1460 + Int.fdiv doe 36524 - Int.fdiv doe 146096) 365
  let doy := doe - (365 * yoe + Int.fdiv yoe 4 - Int.fdiv yoe 100)
  let mp := Int.fdiv (5 * doy + 2) 153
  let m := if mp < 10 then mp + 3 else mp - 9
  (yoe + era * 400) + (if m ≤ 2 then 1 else 0)

/-- The `nth_month_day` branch: for every month of every year touching
the range, each valid day number of the offsets list (invalid day
numbers for the month, e.g. February 30, are skipped — the model of
Go's `d.Month() != m` normalization check) inside the range, matched to
a bar date. -/
def monthDayMatches (start endT : GoTime) (nthList : List Int)
    (barDates : List GoTime) (mt : String) : List GoTime :=
  (List.range (yearOfTime endT - yearOfTime start + 1).toNat).flatMap
    (fun yi =>
      let y := yearOfTime start + (yi : Int)
      (List.range 12).flatMap (fun mi =>
        let m := (mi : Int) + 1
        let monthStart := timeOfCivil y m 1
        let monthEnd := monthStart + secsPerDay * (daysInMonth y m - 1)
        if monthEnd < start ∨ endT < monthStart then []
        else
          nthList.filterMap (fun dayNum =>
            if dayNum < 1 ∨ 31 < dayNum then none
            else if daysInMonth y m < dayNum then none
            else
              let dt := timeOfCivil y m dayNum
              if dt < start ∨ endT < dt then none
              else matchCandidate barDates mt dt)))

/-- Sort ascending (`sort.Slice` by `Before`) then deduplicate by
calendar date, keeping the first-seen entry (the `seen` map of
`ResolveScheduleDates`). -/
def dedupByDay (seen : List Int) : List GoTime → List GoTime
  | [] => []
  | x :: xs =>
    if dayKey x ∈ seen then dedupByDay seen xs
    else x :: dedupByDay (dayKey x :: seen) xs

/-- The post-processing of `ResolveScheduleDates`: sort ascending, then
deduplicate by calendar date keeping the first-seen entry. -/
def sortDedup (l : List GoTime) : List GoTime :=
  dedupByDay [] (l.insertionSort (· ≤ ·))

/-- The branch dispatch of `ResolveScheduleDates`, producing the raw
candidate-match list `out` or an error; `earnings` is the result of the
`GetEarningsDates` HTTP call, `now` the wall clock used for zero-date
defaults.  Note that the `earnings_offset` and `expiry_offset` branches
read `entry.NthList[0]` before any emptiness check: on an empty offsets
list they panic instead of returning an error. -/
def resolveScheduleCore (entry : EntryRule) (bars : List Bar)
    (expiries : List GoTime) (earnings : Except String (List GoTime))
    (now : GoTime) : Except SchedErr (List GoTime) :=
  let barDates := bars.map (·.date)
  let start := if entry.startDate = 0 then now - 365 * secsPerDay
               else entry.startDate
  let endT := if entry.endDate = 0 then now else entry.endDate
  let mode := goToLower (goTrimSpace entry.mode)
  if endT < start then
    Except.error (SchedErr.goError
      "backtest scheduler error: invalid date range")
  else if mode = "earnings_offset" then
    if entry.underlying = "" then
      Except.error (SchedErr.goError
        "backtest scheduler error: earnings_offset mode requires non-empty underlying")
    else
      match earnings with
      | Except.error _ =>
        Except.error (SchedErr.goError
          "backtest scheduler error: fetch earnings dates error")
      | Except.ok es =>
        match entry.nthList with
        | [] => Except.error SchedErr.panicIndexOutOfRange
        | offset :: _ =>
          Except.ok (offsetCandidates es offset start endT barDates
            entry.dateMatchType)
  else if mode = "expiry_offset" then
    match entry.nthList with
    | [] => Except.error SchedErr.panicIndexOutOfRange
    | offset :: _ =>
      Except.ok (offsetCandidates expiries offset start endT barDates
        entry.dateMatchType)
  else if mode = "nth_month_day" then
    if entry.nthList = [] then
      Except.error (SchedErr.goError "nth_month_day mode requires NthList")
    else
      Except.ok (monthDayMatches start endT entry.nthList barDates
        entry.dateMatchType)
  else if mode = "nth_weekday" then
    if entry.nthList = [] then
      Except.error (SchedErr.goError "nth_weekday mode requires NthList")
    else
      Except.ok ((nthWeekdayCandidates start endT entry.nthList).filterMap
        (matchCandidate barDates entry.dateMatchType))
  else
    Except.ok ((scheduleDays start endT).filterMap
      (matchCandidate barDates entry.dateMatchType))

/-- Model of `ResolveScheduleDates`: the branch dispatch followed by the single
exit point that sorts and deduplicates the collected matches. -/
def ResolveScheduleDates (entry : EntryRule) (bars : List Bar)
    (expiries : List GoTime) (earnings : Except String (List GoTime))
    (now : GoTime) : Except SchedErr (List GoTime) :=
  (resolveScheduleCore entry bars expiries earnings now).map sortDedup

/-! ### Strategy planner (`internal/backtest/strategy/planner.go`). -/

/-- Go's `math.Round`: round half away from zero. -/
def goRound (x : ℚ) : ℚ :=
  if x < 0 then -((⌊-x + 1/2⌋ : ℤ) : ℚ) else ((⌊x + 1/2⌋ : ℤ) : ℚ)

/-- Round to two decimals, `math.Round(x*100)/100`. -/
def round2 (x : ℚ) : ℚ := goRound (x * 100) / 100

/-- Model of `resolveATMOffset` for an absolute offset. -/
def resolveATMOffsetAbs (v asOfPrice : ℚ) : ℚ := round2 (asOfPrice + v)

/-- Model of `resolveATMOffset` for a percentage offset. -/
def resolveATMOffsetPct (v asOfPrice : ℚ) : ℚ :=
  round2 (asOfPrice + asOfPrice * v / 100)

/-- Model of `evaluateLegExpression` (planner.go lines 203–253): substitute
`{LEGn.STRIKE}` / `{LEGn.PREMIUM}` tokens with the referenced resolved
leg's strike or open premium (1-indexed; out-of-range indices fail),
then evaluate the arithmetic (the govaluate step; `ℚ` division is
total with `x / 0 = 0`, a case no claim exercises). -/
def evaluateLegExpression (e : LegExpr) (legs : List TradeLeg) :
    Except String ℚ :=
  match e with
  | LegExpr.num q => Except.ok q
  | LegExpr.ref n f =>
    let idx := n - 1
    if idx < 0 ∨ (legs.length : Int) ≤ idx then
      Except.error "LEG out of range"
    else
      match legs.get? idx.toNat with
      | some leg =>
        Except.ok (match f with
          | LegField.strike => leg.strike
          | LegField.premium => leg.openPremium)
      | none => Except.error "LEG out of range"
  | LegExpr.add a b => do
    let x ← evaluateLegExpression a legs
    let y ← evaluateLegExpression b legs
    Except.ok (x + y)
  | LegExpr.sub a b => do
    let x ← evaluateLegExpression a legs
    let y ← evaluateLegExpression b legs
    Except.ok (x - y)
  | LegExpr.mul a b => do
    let x ← evaluateLegExpression a legs
    let y ← evaluateLegExpression b legs
    Except.ok (x * y)
  | LegExpr.div a b => do
    let x ← evaluateLegExpression a legs
    let y ← evaluateLegExpression b legs
    Except.ok (x / y)

/-- Model of `ResolveStrike` (planner.go lines 89–150), dispatching on the rule
form; `roundToNearestStrike` is the provider's
`RoundToNearestStrike` for the fixed underlying / expiry / open date
(the `DELTA:` branch is not modelled — no claim concerns it). -/
def ResolveStrike (rule : StrikeRule) (asOfPrice : ℚ)
    (legs : List TradeLeg) (roundToNearestStrike : ℚ → ℚ) :
    Except String ℚ :=
  match rule with
  | StrikeRule.atm => Except.ok (roundToNearestStrike asOfPrice)
  | StrikeRule.atmOffsetAbs v =>
    Except.ok (roundToNearestStrike (resolveATMOffsetAbs v asOfPrice))
  | StrikeRule.atmOffsetPct v =>
    Except.ok (roundToNearestStrike (resolveATMOffsetPct v asOfPrice))
  | StrikeRule.legExpression e =>
    (evaluateLegExpression e legs).map roundToNearestStrike
  | StrikeRule.unrecognized =>
    Except.error "unrecognized strike expression"

/-- Model of `ResolveExpiration` (planner.go lines 79–84): open date plus the
offset in days, matched against the expiry list. -/
def ResolveExpiration (openDate : GoTime) (offset : Int)
    (expiries : List GoTime) (dateMatchType : String) : GoTime :=
  MatchBarDate (openDate + secsPerDay * offset) expiries dateMatchType

/-- The leg loop of `PlanStrategy` (planner.go lines 45–60):
legs are resolved in spec order, each strike resolution consulting the
legs already resolved; the appended `TradeLeg` carries
`OpenPremium: 0.0` (planner.go line 59, `// TODO: OpenPremium pricing
later` — no premium is fetched during planning). -/
def planLegs (strategy : StrategySpec) (dt : GoTime) (openPrice : ℚ)
    (expiryList : List GoTime) (roundToNearestStrike : ℚ → ℚ) :
    List LegSpec → List TradeLeg → Except String (List TradeLeg)
  | [], legs => Except.ok legs
  | legSpec :: rest, legs =>
    let offset := if legSpec.expiration ≠ 0 then legSpec.expiration
                  else strategy.daysToExpiry
    let exp := ResolveExpiration dt offset expiryList
      strategy.dateMatchType
    match ResolveStrike legSpec.strikeRule openPrice legs
      roundToNearestStrike with
    | Except.error e => Except.error e
    | Except.ok strike =>
      planLegs strategy dt openPrice expiryList roundToNearestStrike rest
        (legs ++ [{ spec := legSpec, strike := strike, expiration := exp,
                    openPremium := 0, closePremium := 0 }])

/-- Model of `PlanStrategy` (planner.go lines 42–65): resolve all legs in order;
any failure, or an empty leg list, yields the `failed to build legs`
error. -/
def PlanStrategy (strategy : StrategySpec) (dt : GoTime) (openPrice : ℚ)
    (expiryList : List GoTime) (roundToNearestStrike : ℚ → ℚ) :
    Except String (List TradeLeg) :=
  match planLegs strategy dt openPrice expiryList roundToNearestStrike
    strategy.legs [] with
  | Except.error _ => Except.error "failed to build legs"
  | Except.ok [] => Except.error "failed to build legs"
  | Except.ok legs => Except.ok legs

/-! ### Pricing (`internal/pricing/bs.go`). -/

/-- Model of `normCDF` (bs.go lines 141–143); `erf` is Go's `math.Erf`, a
standard-library transcendental passed as a parameter. -/
noncomputable def normCDF (erf : ℝ → ℝ) (x : ℝ) : ℝ :=
  0.5 * (1.0 + erf (x / Real.sqrt 2))

/-- Model of `BlackScholesPrice` (bs.go lines 27–47), translated term for term.
Note the degenerate branch (`T <= 0 || sigma <= 0`) returns
`math.Max(0, S-K)` for calls and puts alike. -/
noncomputable def BlackScholesPrice (erf : ℝ → ℝ) (isCall : Bool)
    (S K T r sigma : ℝ) : ℝ :=
  if T ≤ 0 ∨ sigma ≤ 0 then max 0 (S - K)
  else
    let d1 := (Real.log (S / K) + (r + 0.5 * sigma * sigma) * T) /
      (sigma * Real.sqrt T)
    let d2 := d1 - sigma * Real.sqrt T
    if isCall then
      S * normCDF erf d1 - K * Real.exp (-r * T) * normCDF erf d2
    else
      K * Real.exp (-r * T) * normCDF erf (-d2) - S * normCDF erf (-d1)

/-- The intrinsic value of an option as the specification defines it:
`max(0, spot − strike)` for a call, `max(0, strike − spot)` for a put. -/
def specIntrinsic (isCall : Bool) (S K : ℝ) : ℝ :=
  if isCall then max 0 (S - K) else max 0 (K - S)

/-! ### Shared concrete fixtures and helper lemmas. -/

/-- A trade with the given open premium and no legs, opened on day 1. -/
def mkTrade (openPrem : ℚ) : Trade :=
  { id := 1, openDateTime := 86400, underlyingAtOpen := 100, legs := [],
    openPremium := openPrem, highPremium := openPrem, lowPremium := openPrem }

/-- A bar on day 2 with all prices 100. -/
def someBar : Bar :=
  { date := 172800, op := 100, hi := 100, lo := 100, close := 100, vol := 0 }

/-- A provider whose `GetOptionPrice` always fails. -/
def noProv : OptPriceFn := fun _ _ _ _ => none

/-- A Black-Scholes fallback that always returns zero. -/
def zeroBs : BsFn := fun _ _ _ _ _ _ => 0

theorem checkExits_update_high_low (tr : Trade) (h l : ℚ) (c : ℚ) (b : Bar)
    (cfg : ExitSpec) :
    checkExits { tr with highPremium := h, lowPremium := l } c b cfg =
      checkExits tr c b cfg := by
  simp [checkExits, checkExitsAfterProfit, checkExitsAfterStop,
    checkExitsAfterMove, checkExitsAfterDays]

theorem checkExitsAfterDays_eq (tr : Trade) (b : Bar) (cfg : ExitSpec) :
    checkExitsAfterDays tr b cfg = firstSome [exitByDteRule tr b cfg] := by
  cases he : cfg.exitByDaysToExpiry <;>
    simp [checkExitsAfterDays, exitByDteRule, firstSome, he] <;>
    split_ifs <;> simp [firstSome]

theorem checkExitsAfterMove_eq (tr : Trade) (b : Bar) (cfg : ExitSpec) :
    checkExitsAfterMove tr b cfg =
      firstSome [maxDaysRule tr b cfg, exitByDteRule tr b cfg] := by
  cases hm : cfg.maxDaysInTrade <;>
    simp [checkExitsAfterMove, maxDaysRule, firstSome, hm,
      checkExitsAfterDays_eq] <;>
    split_ifs <;> simp [firstSome, checkExitsAfterDays_eq]

theorem checkExitsAfterStop_eq (tr : Trade) (b : Bar) (cfg : ExitSpec) :
    checkExitsAfterStop tr b cfg =
      firstSome [underlyingMoveRule tr b cfg, maxDaysRule tr b cfg,
        exitByDteRule tr b cfg] := by
  cases hu : cfg.underlyingMovePx <;>
    simp [checkExitsAfterStop, underlyingMoveRule, firstSome, hu,
      checkExitsAfterMove_eq] <;>
    split_ifs <;> simp [firstSome, checkExitsAfterMove_eq]

theorem checkExitsAfterProfit_eq (tr : Trade) (c : ℚ) (b : Bar)
    (cfg : ExitSpec) :
    checkExitsAfterProfit tr c b cfg =
      firstSome [stopLossRule tr c cfg, underlyingMoveRule tr b cfg,
        maxDaysRule tr b cfg, exitByDteRule tr b cfg] := by
  cases hs : cfg.stopLossPct <;>
    simp [checkExitsAfterProfit, stopLossRule, firstSome, hs,
      checkExitsAfterStop_eq] <;>
    split_ifs <;> simp [firstSome, checkExitsAfterStop_eq]

theorem checkExits_eq_firstSome (tr : Trade) (c : ℚ) (b : Bar)
    (cfg : ExitSpec) :
    checkExits tr c b cfg =
      firstSome [profitTargetRule tr c cfg, stopLossRule tr c cfg,
        underlyingMoveRule tr b cfg, maxDaysRule tr b cfg,
        exitByDteRule tr b cfg] := by
  cases hp : cfg.profitTargetPct with
  | none =>
    simp [checkExits, profitTargetRule, firstSome, hp,
      checkExitsAfterProfit_eq]
  | some pct =>
    simp only [checkExits, profitTargetRule, hp]
    split_ifs with h1 h2 h3 h4 <;>
      simp_all [firstSome, checkExitsAfterProfit_eq]

/-- The tails after the profit-target rule never return a
profit-target reason. -/
theorem checkExitsAfterProfit_ne_profit (tr : Trade) (c : ℚ) (b : Bar)
    (cfg : ExitSpec) (pct : ℚ) :
    checkExitsAfterProfit tr c b cfg ≠
      some (CloseReason.profitTarget pct) := by
  rw [checkExitsAfterProfit_eq]
  simp only [stopLossRule, underlyingMoveRule, maxDaysRule, exitByDteRule]
  cases cfg.stopLossPct <;> cases cfg.underlyingMovePx <;>
    cases cfg.maxDaysInTrade <;> cases cfg.exitByDaysToExpiry <;>
    simp [firstSome] <;> split_ifs <;> simp [firstSome]

/-- C9: at every simulated bar the exit rules are evaluated against the
bar's total premium in the fixed order profit-target, stop-loss,
underlying-move, max-days-in-trade, exit-by-days-to-expiry, the first
rule that fires determines the recorded close reason (it is stored
unchanged in `closedBy` by the simulation loop), and a bar satisfying
both the profit-target and the stop-loss condition is tagged with the
profit-target reason. -/
theorem c9_exit_priority_order :
    (∀ (tr : Trade) (total : ℚ) (b : Bar) (cfg : ExitSpec),
      checkExits tr total b cfg =
        firstSome [profitTargetRule tr total cfg, stopLossRule tr total cfg,
          underlyingMoveRule tr b cfg, maxDaysRule tr b cfg,
          exitByDteRule tr b cfg]) ∧
    (∀ (prov : OptPriceFn) (bs : BsFn) (hv : ℚ) (cfg : ExitSpec)
      (tr : Trade) (b : Bar) (rest : List Bar) (r : CloseReason),
      checkExits tr (totalPremium prov bs hv tr.legs b) b cfg = some r →
      (simLoop prov bs hv cfg tr b rest).closedBy = some r) ∧
    (∀ (tr : Trade) (total : ℚ) (b : Bar) (cfg : ExitSpec) (ppct spct : ℚ),
      cfg.profitTargetPct = some ppct → 0 ≤ ppct →
      ppct ≤ changePct tr.openPremium total →
      cfg.stopLossPct = some spct →
      changePct tr.openPremium total ≤ -spct →
      checkExits tr total b cfg = some (CloseReason.profitTarget ppct)) := by
  refine ⟨fun tr total b cfg => checkExits_eq_firstSome tr total b cfg,
    ?_, ?_⟩
  · intro prov bs hv cfg tr b rest r hfire
    rw [simLoop.eq_def]
    have hlegs : ({ tr with
        highPremium := if tr.highPremium < totalPremium prov bs hv tr.legs b
          then totalPremium prov bs hv tr.legs b else tr.highPremium,
        lowPremium := if totalPremium prov bs hv tr.legs b < tr.lowPremium
          then totalPremium prov bs hv tr.legs b else tr.lowPremium } :
        Trade).legs = tr.legs := rfl
    simp only [checkExits_update_high_low, hfire]
  · intro tr total b cfg ppct spct hp hnn hge hs _
    rw [checkExits_eq_firstSome]
    simp [profitTargetRule, hp, hnn, hge, firstSome]

/-- C9 witness: a concrete bar satisfying both the profit-target and the
stop-loss condition is tagged with the profit-target reason. -/
theorem c9_exit_priority_order_witness :
    checkExits (mkTrade 100) 140 someBar
      { profitTargetPct := some 30, stopLossPct := some (-50) } =
      some (CloseReason.profitTarget 30) :=
  c9_exit_priority_order.2.2 (mkTrade 100) 140 someBar
    { profitTargetPct := some 30, stopLossPct := some (-50) } 30 (-50)
    rfl (by norm_num)
    (by norm_num [changePct, changeBase, mkTrade])
    rfl
    (by norm_num [changePct, changeBase, mkTrade])

/-- C1 counterexample: with open-premium `0.5` (so `1e-9 ≤ |open| < 1`),
total `0.7` and profit-target `30`, the engine fires the profit target
although the percentage change prescribed by the claim's formula,
`(total − open) / max(|open|, 1.0) × 100 = 20`, is below the target. -/
theorem c1_profit_target_counterexample :
    checkExits (mkTrade (1/2)) (7/10) someBar
      { profitTargetPct := some 30 } =
      some (CloseReason.profitTarget 30) ∧
    specChangePct (1/2) (7/10) < 30 := by
  have habs : |(1/2 : ℚ)| = 1/2 := by norm_num
  have hmax : max |(1/2 : ℚ)| 1 = 1 := by rw [habs]; norm_num
  have hcb : changeBase (1/2) = 1/2 := by
    rw [changeBase, habs]
    norm_num
  have hc : changePct (1/2) (7/10) = 40 := by
    rw [changePct, hcb]
    norm_num
  constructor
  · norm_num [checkExits, mkTrade, hc]
  · rw [specChangePct, hmax]
    norm_num

/-- C1 (amended): the profit-target exit fires exactly when the target
is set, non-negative, and `(total − open) / base × 100 ≥ target`, where
`base = |open|` unless `|open| < 1e-9`, in which case `base = 1.0`
(identically for credit and debit premiums); in particular a trade
opened with open-premium `−250` and profit-target-pct `50` exits
exactly when `total ≥ −125`. -/
theorem c1_profit_target_amended :
    ∀ (tr : Trade) (total : ℚ) (bar : Bar) (cfg : ExitSpec) (pct : ℚ),
      (checkExits tr total bar cfg = some (CloseReason.profitTarget pct) ↔
        cfg.profitTargetPct = some pct ∧ 0 ≤ pct ∧
          pct ≤ changePct tr.openPremium total) ∧
      (tr.openPremium = -250 → cfg.profitTargetPct = some 50 →
        (checkExits tr total bar cfg = some (CloseReason.profitTarget 50) ↔
          -125 ≤ total)) := by
  intro tr total bar cfg pct
  have main : ∀ q : ℚ,
      checkExits tr total bar cfg = some (CloseReason.profitTarget q) ↔
        cfg.profitTargetPct = some q ∧ 0 ≤ q ∧
          q ≤ changePct tr.openPremium total := by
    intro q
    cases hp : cfg.profitTargetPct with
    | none => simp [checkExits, hp, checkExitsAfterProfit_ne_profit]
    | some p =>
      simp only [checkExits, hp, Option.some_inj,
        CloseReason.profitTarget.injEq]
      split_ifs with h1 h2 h3 h3
      · constructor
        · intro h
          rw [Option.some_inj, CloseReason.profitTarget.injEq] at h
          exact ⟨h, h ▸ h1, h ▸ h3⟩
        · rintro ⟨rfl, -, -⟩; rfl
      · constructor
        · intro h; exact absurd h (checkExitsAfterProfit_ne_profit _ _ _ _ _)
        · rintro ⟨rfl, -, hq3⟩
          exact absurd hq3 h3
      · constructor
        · intro h
          rw [Option.some_inj, CloseReason.profitTarget.injEq] at h
          exact ⟨h, h ▸ h1, h ▸ h3⟩
        · rintro ⟨rfl, -, -⟩; rfl
      · constructor
        · intro h; exact absurd h (checkExitsAfterProfit_ne_profit _ _ _ _ _)
        · rintro ⟨rfl, -, hq3⟩
          exact absurd hq3 h3
      · constructor
        · intro h; exact absurd h (checkExitsAfterProfit_ne_profit _ _ _ _ _)
        · rintro ⟨rfl, hq2, -⟩
          exact absurd hq2 h1
  refine ⟨main pct, ?_⟩
  intro hopen hcfg
  rw [main 50]
  have hbase : changePct tr.openPremium total = (total + 250) / 250 * 100 := by
    rw [hopen]
    norm_num [changePct, changeBase]
  constructor
  · rintro ⟨-, -, h⟩
    rw [hbase] at h
    nlinarith
  · intro h
    refine ⟨hcfg, by norm_num, ?_⟩
    rw [hbase]
    nlinarith

/-- C1 witness: the amended rule applied at open-premium `−250`,
target `50`, total `−100 ≥ −125`. -/
theorem c1_profit_target_amended_witness :
    checkExits (mkTrade (-250)) (-100) someBar
      { profitTargetPct := some 50 } =
      some (CloseReason.profitTarget 50) :=
  ((c1_profit_target_amended (mkTrade (-250)) (-100) someBar
      { profitTargetPct := some 50 } 50).2 rfl rfl).mpr (by norm_num)

/-- C2: in the degenerate case (`T ≤ 0` or `σ ≤ 0`) the price function
returns `max(0, S−K)` for calls — but also for puts, where the claimed
intrinsic value is `max(0, K−S)`; at spot 100, strike 110, `T = 0`, the
put price returned is `0` while the put intrinsic value is `10`. -/
theorem c2_intrinsic_degenerate :
    (∀ (erf : ℝ → ℝ) (S K T r sigma : ℝ), T ≤ 0 ∨ sigma ≤ 0 →
      BlackScholesPrice erf true S K T r sigma = specIntrinsic true S K) ∧
    (∀ (erf : ℝ → ℝ) (S K T r sigma : ℝ), T ≤ 0 ∨ sigma ≤ 0 →
      BlackScholesPrice erf false S K T r sigma = max 0 (S - K)) ∧
    (∀ erf : ℝ → ℝ,
      BlackScholesPrice erf false 100 110 0 (2/100) (3/10) = 0 ∧
      specIntrinsic false 100 110 = 10) := by
  refine ⟨?_, ?_, ?_⟩
  · intro erf S K T r sigma h
    rw [BlackScholesPrice, if_pos h, specIntrinsic, if_pos rfl]
  · intro erf S K T r sigma h
    rw [BlackScholesPrice, if_pos h]
  · intro erf
    constructor
    · rw [BlackScholesPrice, if_pos (Or.inl le_rfl)]
      rw [show (100 : ℝ) - 110 = -10 by norm_num]
      exact max_eq_left (by norm_num)
    · rw [specIntrinsic]
      simp only [Bool.false_eq_true, if_false]
      rw [show (110 : ℝ) - 100 = 10 by norm_num]
      exact max_eq_right (by norm_num)

/-- C2 witness: the call half of the degenerate rule evaluated at
`S = 7`, `K = 3`, `T = 0`. -/
theorem c2_intrinsic_degenerate_witness :
    BlackScholesPrice (fun _ => 0) true 7 3 0 1 1 = specIntrinsic true 7 3 ∧
    specIntrinsic true 7 3 = 4 := by
  refine ⟨c2_intrinsic_degenerate.1 (fun _ => 0) 7 3 0 1 1 (Or.inl le_rfl), ?_⟩
  rw [specIntrinsic, if_pos rfl, show (7 : ℝ) - 3 = 4 by norm_num]
  exact max_eq_right (by norm_num)

/-- The single bar of the C3 counterexample, dated before the trade
opens. -/
def c3Bar : Bar :=
  { date := 86400, op := 100, hi := 100, lo := 100, close := 100, vol := 0 }

/-- The C3 trade: opened on day 2, after the only available bar. -/
def c3Trade : Trade :=
  { id := 1, openDateTime := 172800, underlyingAtOpen := 100, legs := [],
    openPremium := 50, highPremium := 50, lowPremium := 50 }

/-- C3: with all inputs fixed (bars, provider, configuration), a trade
closed through the `no_data` path records `time.Now()` as its close
time, so two runs at different wall-clock instants produce different
`Result` structures — the engine is not a deterministic function of its
inputs on this path. -/
theorem c3_no_data_not_deterministic :
    (simCloseTrade noProv zeroBs (3/10) {} c3Trade [c3Bar]
      432000).closeDateTime = some 432000 ∧
    (simCloseTrade noProv zeroBs (3/10) {} c3Trade [c3Bar]
      518400).closeDateTime = some 518400 ∧
    simCloseTrade noProv zeroBs (3/10) {} c3Trade [c3Bar] 432000 ≠
      simCloseTrade noProv zeroBs (3/10) {} c3Trade [c3Bar] 518400 := by
  have h1 : (simCloseTrade noProv zeroBs (3/10) {} c3Trade [c3Bar]
      432000).closeDateTime = some 432000 := rfl
  have h2 : (simCloseTrade noProv zeroBs (3/10) {} c3Trade [c3Bar]
      518400).closeDateTime = some 518400 := rfl
  refine ⟨h1, h2, fun h => ?_⟩
  rw [h, h2] at h1
  exact absurd h1 (by decide)

/-- Leg 1 of the C5 scenario: a plain ATM leg. -/
def c5Leg1Spec : LegSpec :=
  { side := "sell", optionType := "call", strikeRule := StrikeRule.atm }

/-- Leg 2 of the C5 scenario: strike rule
`{LEG1.STRIKE}+{LEG1.PREMIUM}`. -/
def c5Leg2Spec : LegSpec :=
  { strikeRule := StrikeRule.legExpression
      (LegExpr.add (LegExpr.ref 1 LegField.strike)
        (LegExpr.ref 1 LegField.premium)) }

/-- The C5 two-leg strategy. -/
def c5Strategy : StrategySpec :=
  { daysToExpiry := 3, dateMatchType := "nearest",
    legs := [c5Leg1Spec, c5Leg2Spec] }

/-- C5: planning stores `OpenPremium = 0.0` on every resolved leg
(planner.go line 59, `// TODO: OpenPremium pricing later`), so during
the same planning pass `{LEG1.PREMIUM}` is substituted with `0`, not
with a fetched premium: with spot 580 and an identity strike rounding,
leg 2's strike resolves to `580 + 0 = 580`.  The substitution machinery
itself does use the stored premium: on a leg carrying
`OpenPremium = 2.5` and strike `580`, the expression
`{LEG1.STRIKE}+{LEG1.PREMIUM}` evaluates to `582.5`. -/
theorem c5_premium_not_fetched_in_planning :
    PlanStrategy c5Strategy 1728000 580 [1987200] id =
      Except.ok
        [{ spec := c5Leg1Spec, strike := 580, expiration := 1987200,
           openPremium := 0 },
         { spec := c5Leg2Spec, strike := 580, expiration := 1987200,
           openPremium := 0 }] ∧
    evaluateLegExpression
      (LegExpr.add (LegExpr.ref 1 LegField.strike)
        (LegExpr.ref 1 LegField.premium))
      [{ spec := c5Leg1Spec, strike := 580, expiration := 1987200,
         openPremium := 5/2 }] = Except.ok (1165/2) := by
  constructor
  · have hmatch : MatchBarDate 1987200 [1987200] "nearest" = 1987200 := by
      decide
    simp [PlanStrategy, planLegs, c5Strategy, c5Leg1Spec, c5Leg2Spec,
      ResolveStrike, ResolveExpiration, evaluateLegExpression, secsPerDay,
      Except.bind, bind, hmatch]
  · simp [evaluateLegExpression, Except.bind, bind]
    norm_num

theorem if_lt_eq_max (a b : ℚ) : (if a < b then b else a) = max a b := by
  rcases lt_or_le a b with h | h
  · simp [h, max_eq_right h.le]
  · simp [not_lt.mpr h, max_eq_left h]

theorem if_lt_eq_min (a b : ℚ) : (if a < b then a else b) = min a b := by
  rcases lt_or_le a b with h | h
  · simp [h, min_eq_left h.le]
  · simp [not_lt.mpr h, min_eq_right h]

/-- When no exit rule fires and the legs never all expire, the bar loop
runs to the end of the data and closes at the last processed bar with
`close-premium = high-premium`, the running maximum. -/
theorem simLoop_data_end (prov : OptPriceFn) (bs : BsFn) (hv : ℚ)
    (cfg : ExitSpec) :
    ∀ (rest : List Bar) (tr : Trade) (b : Bar),
      (∀ x ∈ b :: rest,
        checkExits tr (totalPremium prov bs hv tr.legs x) x cfg = none ∧
        allLegsExpired tr.legs x = false) →
      simLoop prov bs hv cfg tr b rest =
        { tr with
          highPremium := (b :: rest).foldl
            (fun h x => max h (totalPremium prov bs hv tr.legs x))
            tr.highPremium,
          lowPremium := (b :: rest).foldl
            (fun l x => min l (totalPremium prov bs hv tr.legs x))
            tr.lowPremium,
          closePremium := (b :: rest).foldl
            (fun h x => max h (totalPremium prov bs hv tr.legs x))
            tr.highPremium,
          underlyingAtClose := (rest.getLastD b).close,
          closeDateTime := some (rest.getLastD b).date,
          closedBy := some CloseReason.dataEnd } := by
  intro rest
  induction rest with
  | nil =>
    intro tr b h
    obtain ⟨hex, hal⟩ := h b (by simp)
    rw [simLoop.eq_def]
    simp only [checkExits_update_high_low, hex, hal]
    simp [List.foldl, if_lt_eq_max, if_lt_eq_min, min_comm]
  | cons b2 rest2 ih =>
    intro tr b h
    obtain ⟨hex, hal⟩ := h b (by simp)
    rw [simLoop.eq_def]
    simp only [checkExits_update_high_low, hex, hal]
    rw [ih _ b2 ?_]
    · simp [List.foldl, if_lt_eq_max, if_lt_eq_min, min_comm,
        List.getLastD_cons, List.getLast?_cons]
    · intro x hx
      have hx' := h x (List.mem_cons_of_mem b hx)
      refine ⟨?_, hx'.2⟩
      rw [checkExits_update_high_low]
      exact hx'.1

/-- C6: a trade whose bar loop is exhausted without an exit rule firing
and without all legs expiring is closed at the last available bar with
reason `data_end`, `close-premium = high-premium` (the running maximum
of the bar totals seeded with the initial high premium, not the last
computed total), `underlying-at-close` the last bar's close, and
`close-datetime` the last bar's date.  `b :: rest` is the simulated
segment: the bars at or after the open date (bars are pre-sorted
ascending). -/
theorem c6_data_end_close :
    ∀ (prov : OptPriceFn) (bs : BsFn) (hv : ℚ) (cfg : ExitSpec)
      (tr : Trade) (bars : List Bar) (now : GoTime) (b : Bar)
      (rest : List Bar),
      List.Sorted (fun x y : Bar => x.date ≤ y.date) bars →
      bars.dropWhile (fun x => x.date < tr.openDateTime) = b :: rest →
      (∀ x ∈ b :: rest,
        checkExits tr (totalPremium prov bs hv tr.legs x) x cfg = none ∧
        allLegsExpired tr.legs x = false) →
      (simCloseTrade prov bs hv cfg tr bars now).closedBy =
        some CloseReason.dataEnd ∧
      (simCloseTrade prov bs hv cfg tr bars now).closePremium =
        (b :: rest).foldl
          (fun h x => max h (totalPremium prov bs hv tr.legs x))
          tr.highPremium ∧
      (simCloseTrade prov bs hv cfg tr bars now).closePremium =
        (simCloseTrade prov bs hv cfg tr bars now).highPremium ∧
      (simCloseTrade prov bs hv cfg tr bars now).closeDateTime =
        some (rest.getLastD b).date ∧
      (simCloseTrade prov bs hv cfg tr bars now).underlyingAtClose =
        (rest.getLastD b).close := by
  intro prov bs hv cfg tr bars now b rest _ hdrop h
  have hsim : simCloseTrade prov bs hv cfg tr bars now =
      simLoop prov bs hv cfg tr b rest := by
    rw [simCloseTrade, hdrop]
  rw [hsim, simLoop_data_end prov bs hv cfg rest tr b h]
  simp

/-- A far-expiration leg for the C6 witness. -/
def c6Leg : TradeLeg :=
  { spec := {}, strike := 100, expiration := 8640000, openPremium := 5 }

/-- The C6 witness trade, opened on day 3 with initial premium 500. -/
def c6Trade : Trade :=
  { id := 1, openDateTime := 259200, underlyingAtOpen := 100,
    legs := [c6Leg], openPremium := 500, highPremium := 500,
    lowPremium := 500 }

/-- Day-3 bar for the C6 witness. -/
def c6Bar1 : Bar :=
  { date := 259200, op := 100, hi := 100, lo := 100, close := 100, vol := 0 }

/-- Day-4 bar for the C6 witness. -/
def c6Bar2 : Bar :=
  { date := 345600, op := 101, hi := 101, lo := 101, close := 101, vol := 0 }

/-- C6 witness: a two-bar simulation with no exit rules and a
far-away expiration closes as `data_end` at the second bar, with
close-premium 500, the running maximum (both bar totals price to 0
under the failing provider and the zero fallback). -/
theorem c6_data_end_close_witness :
    (simCloseTrade noProv zeroBs (3/10) {} c6Trade [c6Bar1, c6Bar2]
      0).closedBy = some CloseReason.dataEnd ∧
    (simCloseTrade noProv zeroBs (3/10) {} c6Trade [c6Bar1, c6Bar2]
      0).closePremium = 500 ∧
    (simCloseTrade noProv zeroBs (3/10) {} c6Trade [c6Bar1, c6Bar2]
      0).closeDateTime = some 345600 := by
  have hyp : ∀ x ∈ [c6Bar1, c6Bar2],
      checkExits c6Trade (totalPremium noProv zeroBs (3/10) c6Trade.legs x)
        x {} = none ∧
      allLegsExpired c6Trade.legs x = false := by
    intro x hx
    rcases List.mem_cons.mp hx with rfl | hx2
    · exact ⟨rfl, rfl⟩
    rcases List.mem_cons.mp hx2 with rfl | hx3
    · exact ⟨rfl, rfl⟩
    · cases hx3
  have h := c6_data_end_close noProv zeroBs (3/10) {} c6Trade
    [c6Bar1, c6Bar2] 0 c6Bar1 [c6Bar2]
    (by simp [List.sorted_cons, c6Bar1, c6Bar2]) rfl hyp
  have ht1 : totalPremium noProv zeroBs (3/10) c6Trade.legs c6Bar1 = 0 := by
    simp [totalPremium, legContribution, c6Trade, c6Leg, c6Bar1, noProv,
      zeroBs]
  have ht2 : totalPremium noProv zeroBs (3/10) c6Trade.legs c6Bar2 = 0 := by
    simp [totalPremium, legContribution, c6Trade, c6Leg, c6Bar2, noProv,
      zeroBs]
  refine ⟨h.1, ?_, ?_⟩
  · rw [h.2.1]
    simp only [List.foldl, ht1, ht2]
    rw [show c6Trade.highPremium = 500 from rfl]
    rw [max_eq_left (by norm_num : (0:ℚ) ≤ 500),
      max_eq_left (by norm_num : (0:ℚ) ≤ 500)]
  · rw [h.2.2.2.1]
    rfl

/-! ### C7: date matching under the `nearest` policy. -/

theorem scanDates_exact (d : GoTime) :
    ∀ (l : List GoTime) (ex lo hi : GoTime),
      (scanDates d l (ex, lo, hi)).1 = if d ∈ l then d else ex := by
  intro l
  induction l with
  | nil => intro ex lo hi; simp [scanDates]
  | cons dt rest ih =>
    intro ex lo hi
    simp only [scanDates]
    rw [ih]
    by_cases h : dt = d
    · subst h
      by_cases hm : dt ∈ rest <;> simp [hm, List.mem_cons]
    · by_cases hm : d ∈ rest <;>
        simp [h, hm, List.mem_cons, Ne.symm h]

theorem scanDates_lower (d : GoTime) :
    ∀ (l : List GoTime) (ex lo hi : GoTime), lo = 0 ∨ lo < d →
      (scanDates d l (ex, lo, hi)).2.1 = 0 ∨
        (scanDates d l (ex, lo, hi)).2.1 < d := by
  intro l
  induction l with
  | nil => intro ex lo hi h; simpa [scanDates] using h
  | cons dt rest ih =>
    intro ex lo hi h
    simp only [scanDates]
    by_cases hdt : dt < d
    · exact ih _ _ _ (by simp [hdt])
    · exact ih _ _ _ (by simpa [hdt] using h)

theorem scanDates_higher (d : GoTime) :
    ∀ (l : List GoTime) (ex lo hi : GoTime), hi = 0 ∨ d < hi →
      (scanDates d l (ex, lo, hi)).2.2 = 0 ∨
        d < (scanDates d l (ex, lo, hi)).2.2 := by
  intro l
  induction l with
  | nil => intro ex lo hi h; simpa [scanDates] using h
  | cons dt rest ih =>
    intro ex lo hi h
    simp only [scanDates]
    by_cases hdt : d < dt ∧ hi = 0
    · exact ih _ _ _ (by simp [hdt, hdt.1])
    · exact ih _ _ _ (by simpa [hdt] using h)

theorem MatchBarDate_lower_eq (d : GoTime) (dates : List GoTime) :
    MatchBarDate d dates "lower" =
      (scanDates d (dates.insertionSort (· ≤ ·)) (0, 0, 0)).2.1 := by
  simp [MatchBarDate, knownMode]

theorem MatchBarDate_higher_eq (d : GoTime) (dates : List GoTime) :
    MatchBarDate d dates "higher" =
      (scanDates d (dates.insertionSort (· ≤ ·)) (0, 0, 0)).2.2 := by
  simp [MatchBarDate, knownMode]

theorem MatchBarDate_nearest_eq (d : GoTime) (dates : List GoTime) :
    MatchBarDate d dates "nearest" =
      (let s := scanDates d (dates.insertionSort (· ≤ ·)) (0, 0, 0)
       if s.1 ≠ 0 then s.1
       else if s.2.1 ≠ 0 ∧ s.2.2 ≠ 0 then
         if d - s.2.1 ≤ s.2.2 - d then s.2.1 else s.2.2
       else if s.2.1 ≠ 0 then s.2.1
       else if s.2.2 ≠ 0 then s.2.2
       else 0) := by
  simp [MatchBarDate, knownMode]

/-- C7: under the `nearest` policy — also selected for any unrecognized
policy string — an exact match (of a non-zero target, zero being Go's
"absent" sentinel) wins; otherwise the closer of the nearest-prior and
nearest-next candidates is returned, an exact tie (compared with `<=`)
going to the prior; and the result is never farther from the target
than the `lower` result or the `higher` result. -/
theorem c7_nearest_policy (d : GoTime) (dates : List GoTime) :
    (∀ mode : String, knownMode mode = false →
      MatchBarDate d dates mode = MatchBarDate d dates "nearest") ∧
    (d ≠ 0 → d ∈ dates → MatchBarDate d dates "nearest" = d) ∧
    (d ∉ dates →
      MatchBarDate d dates "nearest" =
        (if MatchBarDate d dates "lower" ≠ 0 ∧
            MatchBarDate d dates "higher" ≠ 0 then
          if d - MatchBarDate d dates "lower" ≤
              MatchBarDate d dates "higher" - d then
            MatchBarDate d dates "lower"
          else MatchBarDate d dates "higher"
        else if MatchBarDate d dates "lower" ≠ 0 then
          MatchBarDate d dates "lower"
        else if MatchBarDate d dates "higher" ≠ 0 then
          MatchBarDate d dates "higher"
        else 0)) ∧
    (d ≠ 0 → MatchBarDate d dates "lower" ≠ 0 →
      |d - MatchBarDate d dates "nearest"| ≤
        |d - MatchBarDate d dates "lower"|) ∧
    (d ≠ 0 → MatchBarDate d dates "higher" ≠ 0 →
      |d - MatchBarDate d dates "nearest"| ≤
        |d - MatchBarDate d dates "higher"|) := by
  have hmem : d ∈ dates.insertionSort (· ≤ ·) ↔ d ∈ dates :=
    (List.perm_insertionSort (· ≤ ·) dates).mem_iff
  have hex := scanDates_exact d (dates.insertionSort (· ≤ ·)) 0 0 0
  have hlo := scanDates_lower d (dates.insertionSort (· ≤ ·)) 0 0 0
    (Or.inl rfl)
  have hhi := scanDates_higher d (dates.insertionSort (· ≤ ·)) 0 0 0
    (Or.inl rfl)
  refine ⟨?_, ?_, ?_, ?_, ?_⟩
  · intro mode hmode
    simp [MatchBarDate, hmode]
  · intro hd hdin
    rw [MatchBarDate_nearest_eq]
    simp only [hex, hmem.mpr hdin, if_pos]
    simp [hd]
  · intro hdout
    rw [MatchBarDate_nearest_eq, MatchBarDate_lower_eq,
      MatchBarDate_higher_eq]
    simp only [hex, hmem, hdout, if_false]
    simp
  · intro hd hlz
    rw [MatchBarDate_lower_eq] at hlz ⊢
    rw [MatchBarDate_nearest_eq]
    set s := scanDates d (dates.insertionSort (· ≤ ·)) (0, 0, 0) with hs
    by_cases hdin : d ∈ dates.insertionSort (· ≤ ·)
    · have hs1 : s.1 = d := by rw [hex]; simp [hdin]
      simp only [hs1, ne_eq, hd, not_false_eq_true, if_true]
      simp
    · have hs1 : s.1 = 0 := by rw [hex]; simp [hdin]
      simp only [hs1, ne_eq, not_true_eq_false, if_false]
      rcases hlo with h0 | hlt
      · exact absurd h0 hlz
      by_cases hh2 : s.2.2 = 0
      · rw [if_neg (fun hc => hc.2 hh2), if_pos hlz]
      · rcases hhi with h0 | hgt
        · exact absurd h0 hh2
        rw [if_pos ⟨hlz, hh2⟩]
        split_ifs with htie
        · exact le_rfl
        · rw [abs_of_neg (by linarith : d - s.2.2 < 0),
            abs_of_pos (by linarith : (0:ℤ) < d - s.2.1)]
          linarith [not_le.mp htie]
  · intro hd hhz
    rw [MatchBarDate_higher_eq] at hhz ⊢
    rw [MatchBarDate_nearest_eq]
    set s := scanDates d (dates.insertionSort (· ≤ ·)) (0, 0, 0) with hs
    by_cases hdin : d ∈ dates.insertionSort (· ≤ ·)
    · have hs1 : s.1 = d := by rw [hex]; simp [hdin]
      simp only [hs1, ne_eq, hd, not_false_eq_true, if_true]
      simp
    · have hs1 : s.1 = 0 := by rw [hex]; simp [hdin]
      simp only [hs1, ne_eq, not_true_eq_false, if_false]
      rcases hhi with h0 | hgt
      · exact absurd h0 hhz
      by_cases hl2 : s.2.1 = 0
      · rw [if_neg (fun hc => hc.1 hl2), if_neg (fun hc => hc hl2),
          if_pos hhz]
      · rcases hlo with h0 | hlt
        · exact absurd h0 hl2
        rw [if_pos ⟨hl2, hhz⟩]
        split_ifs with htie
        · rw [abs_of_pos (by linarith : (0:ℤ) < d - s.2.1),
            abs_of_neg (by linarith : d - s.2.2 < 0)]
          linarith
        · exact le_rfl

/-- C7 witness: target 5 against candidates {3, 9} — no exact match,
prior 3 at distance 2, next 9 at distance 4, so `nearest` returns 3;
target 9 is an exact match; an unrecognized policy string behaves like
`nearest`; and the result is no farther than the prior result. -/
theorem c7_nearest_policy_witness :
    MatchBarDate 5 [3, 9] "nearest" = 3 ∧
    MatchBarDate 9 [3, 9] "nearest" = 9 ∧
    MatchBarDate 5 [3, 9] "wat" = MatchBarDate 5 [3, 9] "nearest" ∧
    |5 - MatchBarDate 5 [3, 9] "nearest"| ≤
      |5 - MatchBarDate 5 [3, 9] "lower"| := by
  have h := c7_nearest_policy 5 [3, 9]
  have h9 := c7_nearest_policy 9 [3, 9]
  refine ⟨?_, h9.2.1 (by decide) (by decide), h.1 "wat" (by decide),
    h.2.2.2.1 (by decide) (by decide)⟩
  rw [h.2.2.1 (by decide)]
  decide

/-! ### C8: scheduler output is sorted and unique by calendar date. -/

theorem dedupByDay_sublist (seen : List Int) (l : List GoTime) :
    List.Sublist (dedupByDay seen l) l := by
  induction l generalizing seen with
  | nil => simp [dedupByDay]
  | cons x xs ih =>
    rw [dedupByDay]
    split_ifs with h
    · exact List.Sublist.cons x (ih seen)
    · exact List.Sublist.cons₂ x (ih _)

theorem dedupByDay_keys (seen : List Int) (l : List GoTime) :
    (dedupByDay seen l).Pairwise (fun a b => dayKey a ≠ dayKey b) ∧
    ∀ x ∈ dedupByDay seen l, dayKey x ∉ seen := by
  induction l generalizing seen with
  | nil => simp [dedupByDay]
  | cons x xs ih =>
    rw [dedupByDay]
    split_ifs with h
    · exact ih seen
    · constructor
      · refine List.Pairwise.cons ?_ (ih (dayKey x :: seen)).1
        intro y hy
        have hy2 := (ih (dayKey x :: seen)).2 y hy
        simp only [List.mem_cons, not_or] at hy2
        exact fun he => hy2.1 he.symm
      · intro y hy
        rcases List.mem_cons.mp hy with rfl | hy2
        · exact h
        · exact fun hseen =>
            (ih (dayKey x :: seen)).2 y hy2 (List.mem_cons_of_mem _ hseen)

theorem dedupByDay_first_seen :
    ∀ (l : List GoTime), l.Pairwise (· ≤ ·) →
      ∀ (seen : List Int) (x : GoTime), x ∈ l → dayKey x ∉ seen →
        ∃ y ∈ dedupByDay seen l, dayKey y = dayKey x ∧ y ≤ x := by
  intro l
  induction l with
  | nil => intro _ seen x hx; cases hx
  | cons z zs ih =>
    intro hsort seen x hx hxs
    rw [dedupByDay]
    rcases List.mem_cons.mp hx with rfl | hx2
    · rw [if_neg hxs]
      exact ⟨x, List.mem_cons_self _ _, rfl, le_rfl⟩
    · by_cases hz : dayKey z ∈ seen
      · rw [if_pos hz]
        exact ih (List.pairwise_cons.mp hsort).2 seen x hx2 hxs
      · rw [if_neg hz]
        by_cases heq : dayKey x = dayKey z
        · exact ⟨z, List.mem_cons_self _ _, heq.symm,
            (List.pairwise_cons.mp hsort).1 x hx2⟩
        · have hxs2 : dayKey x ∉ dayKey z :: seen := by
            simp [heq, hxs]
          obtain ⟨y, hy, hk, hle⟩ :=
            ih (List.pairwise_cons.mp hsort).2 (dayKey z :: seen) x hx2 hxs2
          exact ⟨y, List.mem_cons_of_mem _ hy, hk, hle⟩

theorem sortDedup_props (l : List GoTime) :
    (sortDedup l).Pairwise (· < ·) ∧
    (sortDedup l).Pairwise (fun a b => dayKey a ≠ dayKey b) := by
  have hsorted : (l.insertionSort (· ≤ ·)).Pairwise (· ≤ ·) :=
    List.sorted_insertionSort (· ≤ ·) l
  have hsub := dedupByDay_sublist [] (l.insertionSort (· ≤ ·))
  have hle : (sortDedup l).Pairwise (· ≤ ·) := hsorted.sublist hsub
  have hkeys := (dedupByDay_keys [] (l.insertionSort (· ≤ ·))).1
  refine ⟨?_, hkeys⟩
  have hand := hle.and hkeys
  exact hand.imp (fun hab =>
    lt_of_le_of_ne hab.1 (fun he => hab.2 (by rw [he])))

/-- C8: whenever scheduling succeeds, the returned date list is sorted
strictly ascending with no two entries sharing a calendar date; and the
sort-then-deduplicate post-processing keeps, for every collected match,
an entry of the same calendar date that is no later than it (the
first-seen match in sorted order). -/
theorem c8_schedule_sorted_unique :
    (∀ (entry : EntryRule) (bars : List Bar) (expiries : List GoTime)
      (earnings : Except String (List GoTime)) (now : GoTime)
      (l : List GoTime),
      ResolveScheduleDates entry bars expiries earnings now = Except.ok l →
      l.Pairwise (· < ·) ∧ l.Pairwise (fun a b => dayKey a ≠ dayKey b)) ∧
    (∀ (out : List GoTime) (x : GoTime), x ∈ out →
      ∃ y ∈ sortDedup out, dayKey y = dayKey x ∧ y ≤ x) := by
  constructor
  · intro entry bars expiries earnings now l h
    rw [ResolveScheduleDates] at h
    cases hc : resolveScheduleCore entry bars expiries earnings now with
    | error e => rw [hc] at h; cases h
    | ok out =>
      rw [hc] at h
      simp only [Except.map] at h
      obtain rfl : sortDedup out = l := by
        cases h
        rfl
      exact sortDedup_props out
  · intro out x hx
    have hmem : x ∈ out.insertionSort (· ≤ ·) :=
      (List.perm_insertionSort (· ≤ ·) out).mem_iff.mpr hx
    exact dedupByDay_first_seen (out.insertionSort (· ≤ ·))
      (List.sorted_insertionSort (· ≤ ·) out) [] x hmem (by simp)

/-- The entry rule of the C8 witness: daily schedule over days 10–12. -/
def c8Entry : EntryRule :=
  { startDate := 864000, endDate := 1036800, mode := "daily",
    dateMatchType := "nearest" }

/-- Bar of the C8 witness inside day 10, at 01:00. -/
def c8Bar1 : Bar :=
  { date := 867600, op := 1, hi := 1, lo := 1, close := 1, vol := 0 }

/-- Bar of the C8 witness at day 11 midnight. -/
def c8Bar2 : Bar :=
  { date := 950400, op := 1, hi := 1, lo := 1, close := 1, vol := 0 }

/-- C8 witness: a concrete daily run over three candidate days matches
two distinct bars (the day-12 candidate re-matches the day-11 bar and is
deduplicated away); the output is strictly sorted with distinct calendar
dates. -/
theorem c8_schedule_sorted_unique_witness :
    ResolveScheduleDates c8Entry [c8Bar1, c8Bar2] [] (Except.ok []) 0 =
      Except.ok [867600, 950400] ∧
    List.Pairwise (· < ·) [(867600 : GoTime), 950400] ∧
    List.Pairwise (fun a b => dayKey a ≠ dayKey b)
      [(867600 : GoTime), 950400] := by
  have heq : ResolveScheduleDates c8Entry [c8Bar1, c8Bar2] []
      (Except.ok []) 0 = Except.ok [867600, 950400] := by rfl
  have h := c8_schedule_sorted_unique.1 c8Entry [c8Bar1, c8Bar2] []
    (Except.ok []) 0 [867600, 950400] heq
  exact ⟨heq, h.1, h.2⟩

/-! ### C10: nth-weekday candidate selection. -/

/-- C10: a day of the schedule range is an `nth_weekday` candidate
exactly when its Go weekday number — Sunday = 0, Monday = 1, ...,
Saturday = 6, computed here as `(dayIndex + 1) mod 7` since day 0
(January 1, year 1) was a Monday — belongs to the offsets list; no
occurrence index within the week or month is consulted. -/
theorem c10_nth_weekday_candidates (start endT : Int)
    (offsets : List Int) (d : Int) :
    d ∈ nthWeekdayCandidates start endT offsets ↔
      ((∃ k : ℕ, d = start + secsPerDay * k) ∧ d ≤ endT ∧
        weekday d ∈ offsets) := by
  rw [nthWeekdayCandidates, List.mem_filter, scheduleDays]
  by_cases he : endT < start
  · rw [if_pos he]
    simp only [List.filter_nil, List.not_mem_nil, false_and, false_iff]
    rintro ⟨⟨k, rfl⟩, hle, -⟩
    simp only [secsPerDay] at hle
    omega
  · rw [if_neg he]
    constructor
    · rintro ⟨hd, hw⟩
      rw [List.mem_map] at hd
      obtain ⟨k, hk, rfl⟩ := hd
      rw [List.mem_range] at hk
      refine ⟨⟨k, rfl⟩, ?_, of_decide_eq_true hw⟩
      simp only [secsPerDay] at hk ⊢
      omega
    · rintro ⟨⟨k, rfl⟩, hle, hw⟩
      refine ⟨?_, decide_eq_true hw⟩
      rw [List.mem_map]
      refine ⟨k, ?_, rfl⟩
      rw [List.mem_range]
      simp only [secsPerDay] at hle ⊢
      omega

/-- C10 witness: day 1 of the epoch is a Tuesday (weekday 2) and day 6
is a Sunday (weekday 0); each is a candidate exactly for the matching
offsets list. -/
theorem c10_nth_weekday_candidates_witness :
    (86400 : GoTime) ∈ nthWeekdayCandidates 0 259200 [2] ∧
    (518400 : GoTime) ∈ nthWeekdayCandidates 0 604800 [0] ∧
    weekday 86400 = 2 ∧ weekday 518400 = 0 := by
  refine ⟨?_, ?_, by decide, by decide⟩
  · exact (c10_nth_weekday_candidates 0 259200 [2] 86400).mpr
      ⟨⟨1, by norm_num [secsPerDay]⟩, by norm_num, by decide⟩
  · exact (c10_nth_weekday_candidates 0 604800 [0] 518400).mpr
      ⟨⟨6, by norm_num [secsPerDay]⟩, by norm_num, by decide⟩

/-! ### C4: scheduler error handling. -/

/-- C4: scheduling rejects an inverted date range with an error, and
rejects empty offsets with an error in the `nth_weekday` and
`nth_month_day` modes — but in the `expiry_offset` and
`earnings_offset` modes it reads `NthList[0]` before any emptiness
check and panics (index out of range) instead of returning a
scheduling error. -/
theorem c4_schedule_errors :
    (∀ (entry : EntryRule) (bars : List Bar) (expiries : List GoTime)
      (earnings : Except String (List GoTime)) (now : GoTime),
      entry.startDate ≠ 0 → entry.endDate ≠ 0 →
      entry.endDate < entry.startDate →
      ResolveScheduleDates entry bars expiries earnings now =
        Except.error (SchedErr.goError
          "backtest scheduler error: invalid date range")) ∧
    (∀ (entry : EntryRule) (bars : List Bar) (expiries : List GoTime)
      (earnings : Except String (List GoTime)) (now : GoTime),
      entry.startDate ≠ 0 → entry.endDate ≠ 0 →
      ¬ entry.endDate < entry.startDate →
      goToLower (goTrimSpace entry.mode) = "nth_weekday" →
      entry.nthList = [] →
      ResolveScheduleDates entry bars expiries earnings now =
        Except.error (SchedErr.goError
          "nth_weekday mode requires NthList")) ∧
    (∀ (entry : EntryRule) (bars : List Bar) (expiries : List GoTime)
      (earnings : Except String (List GoTime)) (now : GoTime),
      entry.startDate ≠ 0 → entry.endDate ≠ 0 →
      ¬ entry.endDate < entry.startDate →
      goToLower (goTrimSpace entry.mode) = "nth_month_day" →
      entry.nthList = [] →
      ResolveScheduleDates entry bars expiries earnings now =
        Except.error (SchedErr.goError
          "nth_month_day mode requires NthList")) ∧
    (ResolveScheduleDates
      { startDate := 86400, endDate := 172800, mode := "expiry_offset" }
      [] [] (Except.ok []) 0 =
      Except.error SchedErr.panicIndexOutOfRange) ∧
    (ResolveScheduleDates
      { startDate := 86400, endDate := 172800, underlying := "SPY",
        mode := "earnings_offset" }
      [] [] (Except.ok [86400]) 0 =
      Except.error SchedErr.panicIndexOutOfRange) := by
  refine ⟨?_, ?_, ?_, by rfl, by rfl⟩
  · intro entry bars expiries earnings now hs he hlt
    simp [ResolveScheduleDates, resolveScheduleCore, hs, he, hlt,
      Except.map]
  · intro entry bars expiries earnings now hs he hnl hm hempty
    simp [ResolveScheduleDates, resolveScheduleCore, hs, he, hnl, hm,
      hempty, Except.map]
  · intro entry bars expiries earnings now hs he hnl hm hempty
    simp [ResolveScheduleDates, resolveScheduleCore, hs, he, hnl, hm,
      hempty, Except.map]

/-- C4 witness: the error halves of `c4_schedule_errors` at concrete
entry rules. -/
theorem c4_schedule_errors_witness :
    ResolveScheduleDates { startDate := 172800, endDate := 86400 }
      [] [] (Except.ok []) 0 =
      Except.error (SchedErr.goError
        "backtest scheduler error: invalid date range") ∧
    ResolveScheduleDates
      { startDate := 86400, endDate := 172800, mode := "nth_weekday" }
      [] [] (Except.ok []) 0 =
      Except.error (SchedErr.goError
        "nth_weekday mode requires NthList") ∧
    ResolveScheduleDates
      { startDate := 86400, endDate := 172800, mode := "nth_month_day" }
      [] [] (Except.ok []) 0 =
      Except.error (SchedErr.goError
        "nth_month_day mode requires NthList") := by
  refine ⟨c4_schedule_errors.1 _ [] [] (Except.ok []) 0 (by decide)
      (by decide) (by decide),
    c4_schedule_errors.2.1 _ [] [] (Except.ok []) 0 (by decide)
      (by decide) (by decide) (by decide) rfl,
    c4_schedule_errors.2.2.1 _ [] [] (Except.ok []) 0 (by decide)
      (by decide) (by decide) (by decide) rfl⟩

end OptionReplay
